import Mathlib

/-!
Shallow embedding of the project-management REST API
(controllers for projects, tasks and users) and proofs about its
authorization and update semantics.

Entities are records of the fields the Mongoose schemas expose to the
handlers; the database is the triple of entity lists; every handler is a
pure function from the authenticated actor, the request data and the
database to a response paired with the resulting database.  Reference
ids (`ObjectId` values) are modelled as `String`s.  `findById` on a
malformed id throws a `CastError` with `kind == ObjectId` in Mongoose;
this is modelled by threading a validity predicate `valid` on id strings
and returning a distinct `castError` outcome when it fails, which each
handler maps exactly where its `catch` block does.  `populate` replaces
a stored reference id with the referenced document; the handlers only
ever compare the populated document's `id`/`_id` with the stored
reference string, so comparisons are modelled directly on the reference
strings.
-/

set_option autoImplicit false

namespace PMS

/-- A user document (`models/User`): schema defaults are irrelevant to
the claims, so plain strings are used for every scalar field. -/
structure User where
  id : String
  name : String
  email : String
  password : String
  role : String
  deriving Repr, DecidableEq

/-- A project document (`models/Project`).  `manager` is a single user
reference, `team` the array of user references the handlers push to,
filter and scan with `some`. -/
structure Project where
  id : String
  name : String
  description : String
  manager : String
  team : List String
  status : String
  startDate : String
  endDate : String
  deriving Repr, DecidableEq

/-- A task document (`models/Task`).  `project` is the required project
reference; `assignedTo` is optional, hence `Option`. -/
structure Task where
  id : String
  title : String
  description : String
  project : String
  assignedTo : Option String
  status : String
  priority : String
  dueDate : String
  createdBy : String
  deriving Repr, DecidableEq

/-- The authenticated identity `req.user` attached by the auth
middleware: `{id, role}`. -/
structure Actor where
  id : String
  role : String
  deriving Repr, DecidableEq

/-- The persistent state the repositories act on. -/
structure DB where
  users : List User
  projects : List Project
  tasks : List Task
  deriving Repr, DecidableEq

/-- Outcome of a handler: `ok` models `res.json(value)`, `error s m`
models `res.status(s)` with message body `m` (either
`res.json({msg})` or `res.send`). -/
inductive Result (α : Type) where
  | ok : α → Result α
  | error : Nat → String → Result α
  deriving Repr, DecidableEq

/-- Outcome of `Model.findById(id)`: a malformed id makes Mongoose throw
a `CastError` (`err.kind == ObjectId`), a well-formed id that matches no
document resolves to `null`. -/
inductive Fetched (α : Type) where
  | found : α → Fetched α
  | missing : Fetched α
  | castError : Fetched α
  deriving Repr, DecidableEq

/-- `Project.findById(i)` under the id-validity predicate `valid`. -/
def findProject (valid : String → Bool) (db : DB) (i : String) : Fetched Project :=
  if valid i then
    match db.projects.find? (fun p => p.id == i) with
    | some p => .found p
    | none => .missing
  else .castError

/-- `Task.findById(i)` under the id-validity predicate `valid`. -/
def findTask (valid : String → Bool) (db : DB) (i : String) : Fetched Task :=
  if valid i then
    match db.tasks.find? (fun t => t.id == i) with
    | some t => .found t
    | none => .missing
  else .castError

/-- `User.findById(i)` under the id-validity predicate `valid`. -/
def findUser (valid : String → Bool) (db : DB) (i : String) : Fetched User :=
  if valid i then
    match db.users.find? (fun u => u.id == i) with
    | some u => .found u
    | none => .missing
  else .castError

/-- JavaScript truthiness of an optional string request field:
`undefined` and the empty string are falsy, every other string truthy. -/
def truthy : Option String → Bool
  | some s => s != ""
  | none => false

/-- One field of the `if (field) fields.field = field` merge the update
handlers build before `findByIdAndUpdate`: a truthy request value
replaces the stored one, a falsy or absent value leaves it. -/
def mergeField (old : String) (new : Option String) : String :=
  match new with
  | some s => if s != "" then s else old
  | none => old

/-- The same merge for an optional stored field (`assignedTo`). -/
def mergeOptField (old : Option String) (new : Option String) : Option String :=
  match new with
  | some s => if s != "" then some s else old
  | none => old

/-! ## Project handlers (`controllers/projectController.js`) -/

/-- `GET api/projects/:id` (`getProjectById`): fetch, 404 on absent or
malformed id (the `catch` maps `err.kind == ObjectId` to 404), then the
ordered checks `isAdmin`, `isManager` (`req.user.id === project.manager.id`),
`isTeamMember` (`project.team.some(member => member.id === req.user.id)`);
deny 403 when none holds, otherwise respond with the project. -/
def getProjectById (valid : String → Bool) (db : DB) (actor : Actor)
    (pid : String) : Result Project :=
  match findProject valid db pid with
  | .castError => .error 404 "Project not found"
  | .missing => .error 404 "Project not found"
  | .found p =>
    let isAdmin := actor.role == "admin"
    let isManager := actor.id == p.manager
    let isTeamMember := p.team.any (fun m => m == actor.id)
    if !isAdmin && !isManager && !isTeamMember then
      .error 403 "Not authorized to view this project"
    else .ok p

/-- Request body of `POST api/projects`: all fields the handler
destructures from `req.body`. -/
structure CreateProjectReq where
  name : String
  description : String
  manager : Option String
  team : Option (List String)
  status : Option String
  startDate : Option String
  endDate : Option String
  deriving Repr, DecidableEq

/-- `POST api/projects` (`createProject`): route validation requires
`name` and `description` non-empty; only admin and manager may create;
`manager: manager || req.user.id` and `team: team || []`.  After
`project.save()` persists the document, the handler executes
`res.json(populatedTask)` — `populatedTask` is an undeclared variable in
this file, so a `ReferenceError` is thrown, control reaches the `catch`
block, and the response is `500 "Server error"` while the saved project
remains in storage.  `newId` is the `_id` Mongoose generates. -/
def createProject (db : DB) (actor : Actor) (r : CreateProjectReq)
    (newId : String) : Result Project × DB :=
  if r.name == "" || r.description == "" then
    (.error 400 "Validation failed", db)
  else if actor.role != "admin" && actor.role != "manager" then
    (.error 403 "Not authorized to create projects", db)
  else
    let p : Project :=
      { id := newId
        name := r.name
        description := r.description
        manager := match r.manager with
          | some m => if m != "" then m else actor.id
          | none => actor.id
        team := r.team.getD []
        status := (r.status).getD ""
        startDate := (r.startDate).getD ""
        endDate := (r.endDate).getD "" }
    (.error 500 "Server error", { db with projects := db.projects ++ [p] })

/-- Request body of `PUT api/projects/:id`. -/
structure UpdateProjectReq where
  name : Option String
  description : Option String
  manager : Option String
  team : Option (List String)
  status : Option String
  startDate : Option String
  endDate : Option String
  deriving Repr, DecidableEq

/-- The `projectFields` object `updateProject` builds: truthy string
fields replace stored values; `if (team) projectFields.team = team`
stores the request array verbatim whenever it is present (every
JavaScript array, including `[]`, is truthy). -/
def mergeProject (p : Project) (r : UpdateProjectReq) : Project :=
  { p with
    name := mergeField p.name r.name
    description := mergeField p.description r.description
    manager := mergeField p.manager r.manager
    team := match r.team with
      | some l => l
      | none => p.team
    status := mergeField p.status r.status
    startDate := mergeField p.startDate r.startDate
    endDate := mergeField p.endDate r.endDate }

/-- `PUT api/projects/:id` (`updateProject`): the route attaches no
validator checks, so `validationResult` is always empty; fetch, 404 on
absent/malformed id, allow admin or `req.user.id === project.manager.toString()`,
then `findByIdAndUpdate` with `$set: projectFields`. -/
def updateProject (valid : String → Bool) (db : DB) (actor : Actor)
    (pid : String) (r : UpdateProjectReq) : Result Project × DB :=
  match findProject valid db pid with
  | .castError => (.error 404 "Project not found", db)
  | .missing => (.error 404 "Project not found", db)
  | .found p =>
    let isAdmin := actor.role == "admin"
    let isManager := actor.id == p.manager
    if !isAdmin && !isManager then
      (.error 403 "Not authorized to update this project", db)
    else
      (.ok (mergeProject p r),
       { db with projects :=
           db.projects.map (fun x => if x.id == pid then mergeProject x r else x) })

/-- `DELETE api/projects/:id` (`deleteProject`): fetch, 404 on
absent/malformed id, allow admin or project manager, then
`Task.deleteMany({project: req.params.id})` followed by
`Project.findByIdAndRemove(req.params.id)`. -/
def deleteProject (valid : String → Bool) (db : DB) (actor : Actor)
    (pid : String) : Result String × DB :=
  match findProject valid db pid with
  | .castError => (.error 404 "Project not found", db)
  | .missing => (.error 404 "Project not found", db)
  | .found p =>
    let isAdmin := actor.role == "admin"
    let isManager := actor.id == p.manager
    if !isAdmin && !isManager then
      (.error 403 "Not authorized to delete this project", db)
    else
      let afterTasks : DB :=
        { db with tasks := db.tasks.filter (fun t => t.project != pid) }
      let afterProject : DB :=
        { afterTasks with projects := afterTasks.projects.filter (fun q => q.id != pid) }
      (.ok "Project and associated tasks removed", afterProject)

/-- `POST api/projects/:id/team` (`addTeamMember`): the handler never
reads `validationResult`, so the route's `userId` check is inert; fetch,
404 on absent/malformed id (`catch` message is "Project or user not
found"), allow admin or project manager, `400 "User already in team"`
when `project.team.some(member => member.toString() === userId)`,
otherwise `team.push(userId)` and save. -/
def addTeamMember (valid : String → Bool) (db : DB) (actor : Actor)
    (pid : String) (userId : String) : Result Project × DB :=
  match findProject valid db pid with
  | .castError => (.error 404 "Project or user not found", db)
  | .missing => (.error 404 "Project not found", db)
  | .found p =>
    let isAdmin := actor.role == "admin"
    let isManager := actor.id == p.manager
    if !isAdmin && !isManager then
      (.error 403 "Not authorized to update this project", db)
    else if p.team.any (fun m => m == userId) then
      (.error 400 "User already in team", db)
    else
      (.ok { p with team := p.team ++ [userId] },
       { db with projects :=
           db.projects.map (fun x =>
             if x.id == pid then { x with team := x.team ++ [userId] } else x) })

/-- `DELETE api/projects/:id/team/:userId` (`removeTeamMember`): fetch,
404 on absent/malformed id, allow admin or project manager,
`400 "User not in team"` when the member is absent, otherwise filter the
member out of `team` and save. -/
def removeTeamMember (valid : String → Bool) (db : DB) (actor : Actor)
    (pid : String) (userId : String) : Result Project × DB :=
  match findProject valid db pid with
  | .castError => (.error 404 "Project or user not found", db)
  | .missing => (.error 404 "Project not found", db)
  | .found p =>
    let isAdmin := actor.role == "admin"
    let isManager := actor.id == p.manager
    if !isAdmin && !isManager then
      (.error 403 "Not authorized to update this project", db)
    else if !(p.team.any (fun m => m == userId)) then
      (.error 400 "User not in team", db)
    else
      (.ok { p with team := p.team.filter (fun m => m != userId) },
       { db with projects :=
           db.projects.map (fun x =>
             if x.id == pid then { x with team := x.team.filter (fun m => m != userId) } else x) })

/-! ## Task handlers (`controllers/taskController.js`) -/

/-- Query string of `GET api/tasks`:
`const { project, assignedTo, status, priority } = req.query`. -/
structure TaskQuery where
  project : Option String
  assignedTo : Option String
  status : Option String
  priority : Option String
  deriving Repr, DecidableEq

/-- The `project` entry of the Mongo filter object `getTasks` builds:
absent, an equality match, or the `$in` list the non-admin branch
overwrites it with. -/
inductive ProjFilter where
  | any : ProjFilter
  | eqId : String → ProjFilter
  | inIds : List String → ProjFilter
  deriving Repr, DecidableEq

/-- The `assignedTo` entry of that filter: absent, an equality match, or
the `$exists: false` match for `assignedTo === "unassigned"`. -/
inductive AssignFilter where
  | any : AssignFilter
  | eqId : String → AssignFilter
  | unassigned : AssignFilter
  deriving Repr, DecidableEq

/-- The filter object passed to `Task.find`. -/
structure TaskFilter where
  project : ProjFilter
  assignedTo : AssignFilter
  status : Option String
  priority : Option String
  deriving Repr, DecidableEq

/-- Whether one task document matches the filter, field by field. -/
def taskMatches (f : TaskFilter) (t : Task) : Bool :=
  (match f.project with
   | .any => true
   | .eqId i => t.project == i
   | .inIds l => l.contains t.project)
  && (match f.assignedTo with
      | .any => true
      | .eqId i => t.assignedTo == some i
      | .unassigned => t.assignedTo == none)
  && (match f.status with
      | none => true
      | some s => t.status == s)
  && (match f.priority with
      | none => true
      | some s => t.priority == s)

/-- The ids of the projects accessible to a non-admin caller, computed
by `getTasks` as
`Project.find({$or: [{manager: req.user.id}, {team: req.user.id}]}).select(_id)`. -/
def accessibleProjectIds (db : DB) (actor : Actor) : List String :=
  (db.projects.filter
    (fun p => p.manager == actor.id || p.team.any (fun m => m == actor.id))).map
    (fun p => p.id)

/-- `GET api/tasks` (`getTasks`): build the filter from the truthy query
params (`assignedTo` has the special values `"me"` and `"unassigned"`);
for a non-admin caller overwrite `filter.project` with
`$in: accessibleProjectIds` and answer
`403 "Not authorized to access tasks from this project"` when an
explicit truthy `project` query param is not among those ids; finally
`Task.find(filter)`. -/
def getTasks (db : DB) (actor : Actor) (q : TaskQuery) : Result (List Task) :=
  let base : TaskFilter :=
    { project := match q.project with
        | some s => if s != "" then .eqId s else .any
        | none => .any
      assignedTo := match q.assignedTo with
        | some s =>
          if s == "me" then .eqId actor.id
          else if s == "unassigned" then .unassigned
          else if s != "" then .eqId s
          else .any
        | none => .any
      status := if truthy q.status then q.status else none
      priority := if truthy q.priority then q.priority else none }
  if actor.role != "admin" then
    let ids := accessibleProjectIds db actor
    let f := { base with project := .inIds ids }
    match q.project with
    | some s =>
      if s != "" && !(ids.contains s) then
        .error 403 "Not authorized to access tasks from this project"
      else .ok (db.tasks.filter (taskMatches f))
    | none => .ok (db.tasks.filter (taskMatches f))
  else .ok (db.tasks.filter (taskMatches base))

/-- `GET api/tasks/taskById/:id` (`getTaskById`): fetch with
`populate('project', 'name manager team')`, 404 on absent/malformed id;
when the referenced project does not resolve the populated field is
`null` and reading `task.project.manager` throws, which the `catch`
turns into `500` (`err.kind` is not `ObjectId` there); then the ordered
checks `isAdmin`, `isManager`, `isTeamMember`, `isAssigned`
(`task.assignedTo && task.assignedTo._id.toString() === req.user.id`). -/
def getTaskById (valid : String → Bool) (db : DB) (actor : Actor)
    (tid : String) : Result Task :=
  match findTask valid db tid with
  | .castError => .error 404 "Task not found"
  | .missing => .error 404 "Task not found"
  | .found t =>
    match db.projects.find? (fun p => p.id == t.project) with
    | none => .error 500 "Server error"
    | some pr =>
      let isAdmin := actor.role == "admin"
      let isManager := pr.manager == actor.id
      let isTeamMember := pr.team.any (fun m => m == actor.id)
      let isAssigned := t.assignedTo == some actor.id
      if !isAdmin && !isManager && !isTeamMember && !isAssigned then
        .error 403 "Not authorized to view this task"
      else .ok t

/-- Request body of `POST api/tasks/assignTask`. -/
structure CreateTaskReq where
  title : String
  description : String
  project : String
  assignedTo : Option String
  status : Option String
  priority : Option String
  dueDate : Option String
  deriving Repr, DecidableEq

/-- `POST api/tasks/assignTask` (`createTask`): route validation
requires `title`, `description` and `project` non-empty;
`Project.findById(project)` — its `catch` block has **no**
`err.kind == ObjectId` branch, so a malformed project id becomes
`500 "Server error"`, while a well-formed unresolved one is
`404 "Project not found"`; allow admin, the project's manager or a team
member; then save the new task (schema defaults of the missing model
file are not modelled — no claim depends on them) and respond with the
populated document. -/
def createTask (valid : String → Bool) (db : DB) (actor : Actor)
    (r : CreateTaskReq) (newId : String) : Result Task × DB :=
  if r.title == "" || r.description == "" || r.project == "" then
    (.error 400 "Validation failed", db)
  else
    match findProject valid db r.project with
    | .castError => (.error 500 "Server error", db)
    | .missing => (.error 404 "Project not found", db)
    | .found pr =>
      let isAdmin := actor.role == "admin"
      let isManager := pr.manager == actor.id
      let isTeamMember := pr.team.any (fun m => m == actor.id)
      if !isAdmin && !isManager && !isTeamMember then
        (.error 403 "Not authorized to add tasks to this project", db)
      else
        let t : Task :=
          { id := newId
            title := r.title
            description := r.description
            project := r.project
            assignedTo := r.assignedTo
            status := (r.status).getD ""
            priority := (r.priority).getD ""
            dueDate := (r.dueDate).getD ""
            createdBy := actor.id }
        (.ok t, { db with tasks := db.tasks ++ [t] })

/-- Request body of `PUT api/tasks/update/:id`: the fields the handler
destructures (`project` is not among them). -/
structure UpdateTaskReq where
  title : Option String
  description : Option String
  assignedTo : Option String
  status : Option String
  priority : Option String
  dueDate : Option String
  deriving Repr, DecidableEq

/-- The `taskFields` object `updateTask` builds from the truthy request
fields; `project` is never set. -/
def mergeTask (t : Task) (r : UpdateTaskReq) : Task :=
  { t with
    title := mergeField t.title r.title
    description := mergeField t.description r.description
    assignedTo := mergeOptField t.assignedTo r.assignedTo
    status := mergeField t.status r.status
    priority := mergeField t.priority r.priority
    dueDate := mergeField t.dueDate r.dueDate }

/-- `PUT api/tasks/update/:id` (`updateTask`): the route attaches no
validator checks; fetch with `populate('project', 'manager team')`
(unresolved project reference → `500` as in `getTaskById`); allow admin,
project manager, team member or assignee
(`task.assignedTo && task.assignedTo.toString() === req.user.id`); then
`findByIdAndUpdate` with `$set: taskFields`. -/
def updateTask (valid : String → Bool) (db : DB) (actor : Actor)
    (tid : String) (r : UpdateTaskReq) : Result Task × DB :=
  match findTask valid db tid with
  | .castError => (.error 404 "Task not found", db)
  | .missing => (.error 404 "Task not found", db)
  | .found t =>
    match db.projects.find? (fun p => p.id == t.project) with
    | none => (.error 500 "Server error", db)
    | some pr =>
      let isAdmin := actor.role == "admin"
      let isManager := pr.manager == actor.id
      let isTeamMember := pr.team.any (fun m => m == actor.id)
      let isAssigned := t.assignedTo == some actor.id
      if !isAdmin && !isManager && !isTeamMember && !isAssigned then
        (.error 403 "Not authorized to update this task", db)
      else
        (.ok (mergeTask t r),
         { db with tasks :=
             db.tasks.map (fun x => if x.id == tid then mergeTask x r else x) })

/-- `DELETE api/tasks/deleteTask/:id` (`deleteTask`): fetch with
`populate('project', 'manager team')` (unresolved project reference →
`500`); only admin or the project's manager may delete; then
`Task.findByIdAndRemove`. -/
def deleteTask (valid : String → Bool) (db : DB) (actor : Actor)
    (tid : String) : Result String × DB :=
  match findTask valid db tid with
  | .castError => (.error 404 "Task not found", db)
  | .missing => (.error 404 "Task not found", db)
  | .found t =>
    match db.projects.find? (fun p => p.id == t.project) with
    | none => (.error 500 "Server error", db)
    | some pr =>
      let isAdmin := actor.role == "admin"
      let isManager := pr.manager == actor.id
      if !isAdmin && !isManager then
        (.error 403 "Not authorized to delete this task", db)
      else
        (.ok "Task removed",
         { db with tasks := db.tasks.filter (fun x => x.id != tid) })

/-! ## User handlers (`controllers/userController.js`) -/

/-- Request body of `PUT api/users/:id`:
`const { name, email, role } = req.body`. -/
structure UpdateUserReq where
  name : Option String
  email : Option String
  role : Option String
  deriving Repr, DecidableEq

/-- The `userFields` object `updateUser` builds: truthy `name` and
`email` are set; `role` is set only when it is truthy **and**
`req.user.role === "admin"`. -/
def mergeUser (actor : Actor) (u : User) (r : UpdateUserReq) : User :=
  { u with
    name := mergeField u.name r.name
    email := mergeField u.email r.email
    role := if truthy r.role && actor.role == "admin" then
        mergeField u.role r.role
      else u.role }

/-- `PUT api/users/:id` (`updateUser`): the route's checks are
`optional()`, so an absent field never fails validation (the external
`isEmail` format check is out of scope); build `userFields`, fetch, 404
on absent/malformed id, allow self or admin, then `findByIdAndUpdate`
with `$set: userFields`. -/
def updateUser (valid : String → Bool) (db : DB) (actor : Actor)
    (uid : String) (r : UpdateUserReq) : Result User × DB :=
  match findUser valid db uid with
  | .castError => (.error 404 "User not found", db)
  | .missing => (.error 404 "User not found", db)
  | .found u =>
    if actor.id != uid && actor.role != "admin" then
      (.error 403 "Not authorized to update this user", db)
    else
      (.ok (mergeUser actor u r),
       { db with users :=
           db.users.map (fun x => if x.id == uid then mergeUser actor x r else x) })

/-! ## General lemmas -/

/-- `array.some(member => member === a)` tests membership. -/
theorem any_beq_iff (l : List String) (a : String) :
    (l.any fun m => m == a) = true ↔ a ∈ l := by
  simp [List.any_eq_true]

/-- The complement: the `some` scan fails exactly when `a` is not in the
array. -/
theorem any_beq_eq_false_iff (l : List String) (a : String) :
    (l.any fun m => m == a) = false ↔ a ∉ l := by
  rw [← Bool.not_eq_true, not_iff_not]
  exact any_beq_iff l a

/-! ## C1: single-project view authorization -/

/-- C1.  When project `P` exists, `getProjectById` succeeds for actor
`A` iff `A.role == admin`, or `A.id == P.manager`, or `A.id ∈ P.team`;
otherwise it is denied with `403` (Forbidden). -/
theorem getProjectById_view_iff (valid : String → Bool) (db : DB)
    (actor : Actor) (pid : String) (p : Project)
    (hp : findProject valid db pid = .found p) :
    (getProjectById valid db actor pid = .ok p ↔
      actor.role = "admin" ∨ actor.id = p.manager ∨ actor.id ∈ p.team) ∧
    (¬ (actor.role = "admin" ∨ actor.id = p.manager ∨ actor.id ∈ p.team) →
      getProjectById valid db actor pid =
        .error 403 "Not authorized to view this project") := by
  have hc : (!(actor.role == "admin") && !(actor.id == p.manager) &&
      !(p.team.any fun m => m == actor.id)) = true ↔
      ¬ (actor.role = "admin" ∨ actor.id = p.manager ∨ actor.id ∈ p.team) := by
    simp only [not_or, Bool.and_eq_true, Bool.not_eq_true', beq_eq_false_iff_ne,
      ne_eq, List.any_eq_false]
    constructor
    · rintro ⟨⟨h1, h2⟩, h3⟩
      refine ⟨h1, h2, fun hm => ?_⟩
      have hfalse := h3 _ hm
      simp at hfalse
    · rintro ⟨h1, h2, h3⟩
      refine ⟨⟨h1, h2⟩, fun x hx => ?_⟩
      simp only [beq_iff_eq]
      rintro rfl
      exact h3 hx
  simp only [getProjectById, hp]
  by_cases h : actor.role = "admin" ∨ actor.id = p.manager ∨ actor.id ∈ p.team
  · have hb : (!(actor.role == "admin") && !(actor.id == p.manager) &&
        !(p.team.any fun m => m == actor.id)) = false := by
      cases hcb : (!(actor.role == "admin") && !(actor.id == p.manager) &&
        !(p.team.any fun m => m == actor.id))
      · rfl
      · exact absurd h (hc.mp hcb)
    rw [if_neg (by simp [hb])]
    constructor
    · exact ⟨fun _ => h, fun _ => rfl⟩
    · exact fun hn => absurd h hn
  · have hb := hc.mpr h
    rw [if_pos hb]
    constructor
    · constructor
      · intro hok
        cases hok
      · intro hd
        exact absurd hd h
    · intro _
      rfl

/-- Witness for C1 at a concrete state: a member actor in the team may
view, and the iff instantiates. -/
theorem getProjectById_view_iff_witness :
    getProjectById (fun _ => true)
      { users := [], tasks := [],
        projects := [{ id := "p1", name := "n", description := "d",
                       manager := "u2", team := ["u1"], status := "",
                       startDate := "", endDate := "" }] }
      { id := "u1", role := "member" } "p1" =
      .ok { id := "p1", name := "n", description := "d", manager := "u2",
            team := ["u1"], status := "", startDate := "", endDate := "" } := by
  have h := getProjectById_view_iff (fun _ => true)
    { users := [], tasks := [],
      projects := [{ id := "p1", name := "n", description := "d",
                     manager := "u2", team := ["u1"], status := "",
                     startDate := "", endDate := "" }] }
    { id := "u1", role := "member" } "p1"
    { id := "p1", name := "n", description := "d", manager := "u2",
      team := ["u1"], status := "", startDate := "", endDate := "" }
    (by decide)
  exact h.1.mpr (by decide)

/-! ## C2: delete-task authorization -/

/-- Demo project from the spec's scenario: `u2` manages `p1`, `u1` is
the only team member. -/
def pDemo : Project :=
  { id := "p1", name := "n", description := "d", manager := "u2",
    team := ["u1"], status := "", startDate := "", endDate := "" }

/-- Demo task `t1` in `p1`, unassigned. -/
def tDemo : Task :=
  { id := "t1", title := "t", description := "d", project := "p1",
    assignedTo := none, status := "", priority := "", dueDate := "",
    createdBy := "u2" }

/-- Demo database holding just `pDemo` and `tDemo`. -/
def dbDemo : DB := { users := [], projects := [pDemo], tasks := [tDemo] }

/-- C2.  For an existing task whose project resolves, `deleteTask`
succeeds exactly for admins and the project's manager; every actor who
may delete may also view and update the task; and a plain team member
(neither admin nor manager) can view the task but is denied deletion
with `403` — so the delete permission set is strictly narrower. -/
theorem deleteTask_admin_or_manager_only (valid : String → Bool) (db : DB)
    (actor : Actor) (tid : String) (t : Task) (pr : Project)
    (ht : findTask valid db tid = .found t)
    (hpr : db.projects.find? (fun p => p.id == t.project) = some pr) :
    ((deleteTask valid db actor tid).1 = .ok "Task removed" ↔
      actor.role = "admin" ∨ pr.manager = actor.id) ∧
    (∀ b : Actor, (deleteTask valid db b tid).1 = .ok "Task removed" →
      getTaskById valid db b tid = .ok t ∧
      ∀ r : UpdateTaskReq, (updateTask valid db b tid r).1 = .ok (mergeTask t r)) ∧
    (∀ b : Actor, b.role ≠ "admin" → pr.manager ≠ b.id → b.id ∈ pr.team →
      getTaskById valid db b tid = .ok t ∧
      (deleteTask valid db b tid).1 =
        .error 403 "Not authorized to delete this task") ∧
    (∀ b : Actor, b.role ≠ "admin" → pr.manager ≠ b.id →
      t.assignedTo = some b.id →
      getTaskById valid db b tid = .ok t ∧
      (deleteTask valid db b tid).1 =
        .error 403 "Not authorized to delete this task") := by
  have hdel : ∀ b : Actor, deleteTask valid db b tid =
      if (!(b.role == "admin") && !(pr.manager == b.id)) = true then
        (.error 403 "Not authorized to delete this task", db)
      else
        (.ok "Task removed",
         { db with tasks := db.tasks.filter (fun x => x.id != tid) }) := by
    intro b
    simp only [deleteTask, ht, hpr]
  have hviewOk : ∀ b : Actor,
      (b.role = "admin" ∨ pr.manager = b.id ∨ b.id ∈ pr.team ∨
        t.assignedTo = some b.id) →
      getTaskById valid db b tid = .ok t := by
    intro b hb
    have hcond : (!(b.role == "admin") && !(pr.manager == b.id) &&
        !(pr.team.any fun m => m == b.id) && !(t.assignedTo == some b.id)) = false := by
      rcases hb with h | h | h | h
      · simp [h]
      · simp [h]
      · have := (any_beq_iff pr.team b.id).mpr h
        simp [this]
      · simp [h]
    simp only [getTaskById, ht, hpr]
    rw [if_neg (by simp [hcond])]
  have hupdOk : ∀ (b : Actor) (r : UpdateTaskReq),
      (b.role = "admin" ∨ pr.manager = b.id ∨ b.id ∈ pr.team ∨
        t.assignedTo = some b.id) →
      (updateTask valid db b tid r).1 = .ok (mergeTask t r) := by
    intro b r hb
    have hcond : (!(b.role == "admin") && !(pr.manager == b.id) &&
        !(pr.team.any fun m => m == b.id) && !(t.assignedTo == some b.id)) = false := by
      rcases hb with h | h | h | h
      · simp [h]
      · simp [h]
      · have := (any_beq_iff pr.team b.id).mpr h
        simp [this]
      · simp [h]
    simp only [updateTask, ht, hpr]
    rw [if_neg (by simp [hcond])]
  have hiff : ∀ b : Actor,
      ((deleteTask valid db b tid).1 = .ok "Task removed" ↔
        b.role = "admin" ∨ pr.manager = b.id) := by
    intro b
    rw [hdel b]
    by_cases h : b.role = "admin" ∨ pr.manager = b.id
    · have hcond : (!(b.role == "admin") && !(pr.manager == b.id)) = false := by
        rcases h with h | h
        · simp [h]
        · simp [h]
      rw [if_neg (by simp [hcond])]
      exact ⟨fun _ => h, fun _ => rfl⟩
    · rw [not_or] at h
      have hcond : (!(b.role == "admin") && !(pr.manager == b.id)) = true := by
        simp [h.1, h.2]
      rw [if_pos hcond]
      constructor
      · intro hk
        cases hk
      · intro hd
        exact absurd hd (by rw [not_or]; exact h)
  have hdeny : ∀ b : Actor, b.role ≠ "admin" → pr.manager ≠ b.id →
      (deleteTask valid db b tid).1 =
        .error 403 "Not authorized to delete this task" := by
    intro b h1 h2
    rw [hdel b]
    have hcond : (!(b.role == "admin") && !(pr.manager == b.id)) = true := by
      simp [h1, h2]
    rw [if_pos hcond]
  refine ⟨hiff actor, fun b hb => ?_, fun b h1 h2 h3 => ?_, fun b h1 h2 h3 => ?_⟩
  · have hd := (hiff b).mp hb
    rcases hd with h | h
    · exact ⟨hviewOk b (Or.inl h), fun r => hupdOk b r (Or.inl h)⟩
    · exact ⟨hviewOk b (Or.inr (Or.inl h)), fun r => hupdOk b r (Or.inr (Or.inl h))⟩
  · exact ⟨hviewOk b (Or.inr (Or.inr (Or.inl h3))), hdeny b h1 h2⟩
  · exact ⟨hviewOk b (Or.inr (Or.inr (Or.inr h3))), hdeny b h1 h2⟩

/-- Witness for C2 at the spec's scenario: team member `u1` may view
`t1` but has its delete denied with `403`, while manager `u2`'s delete
succeeds. -/
theorem deleteTask_admin_or_manager_only_witness :
    (getTaskById (fun _ => true) dbDemo { id := "u1", role := "member" } "t1" =
      .ok tDemo ∧
     (deleteTask (fun _ => true) dbDemo { id := "u1", role := "member" } "t1").1 =
      .error 403 "Not authorized to delete this task") ∧
    (deleteTask (fun _ => true) dbDemo { id := "u2", role := "manager" } "t1").1 =
      .ok "Task removed" := by
  have h1 := deleteTask_admin_or_manager_only (fun _ => true) dbDemo
    { id := "u1", role := "member" } "t1" tDemo pDemo (by decide) (by decide)
  have h2 := deleteTask_admin_or_manager_only (fun _ => true) dbDemo
    { id := "u2", role := "manager" } "t1" tDemo pDemo (by decide) (by decide)
  exact ⟨h1.2.2.1 { id := "u1", role := "member" } (by decide) (by decide) (by decide),
         h2.1.mpr (Or.inr (by decide))⟩

/-! ## C3: persistence after a post-save failure in createProject -/

/-- C3 (evidence of the code bug).  An authorized create-project request
by an admin fails after the save step — the handler's response line
reads the undeclared variable `populatedTask`, so the thrown
`ReferenceError` lands in the `catch` block and the response is
`500 "Server error"` — yet the new project **is** left in storage,
contradicting the no-partial-persistence claim. -/
theorem createProject_persists_despite_failure :
    (createProject { users := [], projects := [], tasks := [] }
        { id := "a1", role := "admin" }
        { name := "alpha", description := "first", manager := none,
          team := none, status := none, startDate := none, endDate := none }
        "p9").1 = .error 500 "Server error" ∧
    ((createProject { users := [], projects := [], tasks := [] }
        { id := "a1", role := "admin" }
        { name := "alpha", description := "first", manager := none,
          team := none, status := none, startDate := none, endDate := none }
        "p9").2.projects.map Project.id) = ["p9"] := by
  exact ⟨rfl, rfl⟩

/-! ## C4: deleteProject cascades to tasks -/

/-- Filtering for `key == pid` after filtering for `key != pid` yields
nothing. -/
theorem filter_eq_after_filter_ne {α : Type} (f : α → String) (l : List α)
    (pid : String) :
    ((l.filter fun a => f a != pid).filter fun a => f a == pid) = [] := by
  induction l with
  | nil => rfl
  | cons x xs ih =>
    by_cases hx : f x = pid
    · simp [List.filter_cons, hx, ih]
    · simp [List.filter_cons, hx, ih]

/-- `find?` for `key == pid` fails after filtering for `key != pid`. -/
theorem find_eq_none_after_filter_ne {α : Type} (f : α → String) (l : List α)
    (pid : String) :
    ((l.filter fun a => f a != pid).find? fun a => f a == pid) = none := by
  rw [List.find?_eq_none]
  intro a ha
  have hne := (List.mem_filter.mp ha).2
  simp only [bne_iff_ne, ne_eq] at hne
  simp [hne]

/-- The state after `deleteProject`'s first repository call,
`Task.deleteMany({project: req.params.id})`, before the project itself
is removed. -/
def afterTaskDelete (db : DB) (pid : String) : DB :=
  { db with tasks := db.tasks.filter (fun t => t.project != pid) }

/-- C4.  A successful `deleteProject` on an existing project removes the
project and every task referencing it — afterwards `find({project: P.id})`
on tasks is empty and the project no longer resolves — and the handler
issues `Task.deleteMany` first: in the state after that first repository
call the tasks of `P` are already gone while `P` itself still resolves. -/
theorem deleteProject_cascades (valid : String → Bool) (db : DB)
    (actor : Actor) (pid : String) (p : Project)
    (hp : findProject valid db pid = .found p)
    (hauth : actor.role = "admin" ∨ actor.id = p.manager) :
    (deleteProject valid db actor pid).1 =
      .ok "Project and associated tasks removed" ∧
    ((deleteProject valid db actor pid).2.tasks.filter
      (fun t => t.project == pid)) = [] ∧
    ((deleteProject valid db actor pid).2.projects.find?
      (fun q => q.id == pid)) = none ∧
    (findProject valid (afterTaskDelete db pid) pid = .found p ∧
     ((afterTaskDelete db pid).tasks.filter (fun t => t.project == pid)) = []) := by
  have hcond : (!(actor.role == "admin") && !(actor.id == p.manager)) = false := by
    rcases hauth with h | h
    · simp [h]
    · simp [h]
  have hval : deleteProject valid db actor pid =
      (.ok "Project and associated tasks removed",
       { db with
           tasks := db.tasks.filter (fun t => t.project != pid)
           projects := db.projects.filter (fun q => q.id != pid) }) := by
    simp only [deleteProject, hp]
    rw [if_neg (by simp [hcond])]
  refine ⟨by rw [hval], ?_, ?_, ?_, ?_⟩
  · rw [hval]
    exact filter_eq_after_filter_ne Task.project db.tasks pid
  · rw [hval]
    exact find_eq_none_after_filter_ne Project.id db.projects pid
  · exact hp
  · exact filter_eq_after_filter_ne Task.project db.tasks pid

/-- Witness for C4: the manager `u2` deletes `p1` in the demo state;
the task list filtered by `p1` is empty afterwards. -/
theorem deleteProject_cascades_witness :
    (deleteProject (fun _ => true) dbDemo { id := "u2", role := "manager" } "p1").1 =
      .ok "Project and associated tasks removed" ∧
    ((deleteProject (fun _ => true) dbDemo { id := "u2", role := "manager" } "p1").2.tasks.filter
      (fun t => t.project == "p1")) = [] := by
  have h := deleteProject_cascades (fun _ => true) dbDemo
    { id := "u2", role := "manager" } "p1" pDemo (by decide) (Or.inr (by decide))
  exact ⟨h.1, h.2.1⟩

/-! ## C5: team-member conflict check and duplicate team entries -/

/-- Unpack a successful `findProject`: the id was well-formed and the
underlying `find?` located the document. -/
theorem findProject_found_elim (valid : String → Bool) (db : DB)
    (pid : String) (p : Project)
    (hp : findProject valid db pid = .found p) :
    valid pid = true ∧ db.projects.find? (fun q => q.id == pid) = some p := by
  by_cases hv : valid pid
  · refine ⟨hv, ?_⟩
    have hp' := hp
    unfold findProject at hp'
    rw [if_pos hv] at hp'
    rcases hfp : db.projects.find? (fun q => q.id == pid) with _ | q
    · rw [hfp] at hp'
      exact Fetched.noConfusion hp'
    · rw [hfp] at hp'
      injection hp' with h
      exact h ▸ hfp
  · have hp' := hp
    unfold findProject at hp'
    rw [if_neg hv] at hp'
    exact Fetched.noConfusion hp'

/-- C5 counterexample.  The claim "P.team never contains duplicate
entries after any sequence of operations" fails: `updateProject` stores
the request's `team` array verbatim, so the manager updating `p1` with
`team: ["u1", "u1"]` persists a duplicated team. -/
theorem team_duplicates_via_updateProject :
    ((updateProject (fun _ => true) dbDemo { id := "u2", role := "manager" } "p1"
        { name := none, description := none, manager := none,
          team := some ["u1", "u1"], status := none, startDate := none,
          endDate := none }).2.projects.map Project.team) = [["u1", "u1"]] ∧
    ¬ List.Nodup ["u1", "u1"] := by
  exact ⟨rfl, by decide⟩

/-- C5 (amended).  For an authorized actor, adding a user already in
`P.team` answers `400 "User already in team"` and leaves the whole
database unchanged; moreover, assuming unique project ids,
`addTeamMember` and `removeTeamMember` preserve "every stored team is
duplicate-free" — only `updateProject`/`createProject`, which store a
request-supplied team verbatim, can break it. -/
theorem addTeamMember_conflict_and_nodup (valid : String → Bool) (db : DB)
    (actor : Actor) (pid : String) (u : String) (p : Project)
    (hp : findProject valid db pid = .found p)
    (hauth : actor.role = "admin" ∨ actor.id = p.manager)
    (hids : (db.projects.map Project.id).Nodup)
    (hteam : ∀ q ∈ db.projects, q.team.Nodup) :
    (u ∈ p.team →
      addTeamMember valid db actor pid u = (.error 400 "User already in team", db)) ∧
    (∀ q ∈ (addTeamMember valid db actor pid u).2.projects, q.team.Nodup) ∧
    (∀ w : String, ∀ q ∈ (removeTeamMember valid db actor pid w).2.projects,
      q.team.Nodup) := by
  have hcond : (!(actor.role == "admin") && !(actor.id == p.manager)) = false := by
    rcases hauth with h | h
    · simp [h]
    · simp [h]
  have hfind := (findProject_found_elim valid db pid p hp).2
  have hpmem : p ∈ db.projects := List.mem_of_find?_eq_some hfind
  have hpid : p.id = pid := by
    have := List.find?_some hfind
    simpa using this
  have huniq : ∀ x ∈ db.projects, (x.id == pid) = true → x = p := by
    intro x hx hxid
    refine List.inj_on_of_nodup_map hids hx hpmem ?_
    rw [hpid]
    simpa using hxid
  refine ⟨fun hmem => ?_, ?_, ?_⟩
  · have hany := (any_beq_iff p.team u).mpr hmem
    simp only [addTeamMember, hp]
    rw [if_neg (by simp [hcond]), if_pos hany]
  · by_cases hmem : u ∈ p.team
    · have hany := (any_beq_iff p.team u).mpr hmem
      have heq : addTeamMember valid db actor pid u =
          (.error 400 "User already in team", db) := by
        simp only [addTeamMember, hp]
        rw [if_neg (by simp [hcond]), if_pos hany]
      rw [heq]
      exact hteam
    · have hany := (any_beq_eq_false_iff p.team u).mpr hmem
      have heq : addTeamMember valid db actor pid u =
          (.ok { p with team := p.team ++ [u] },
           { db with projects :=
               db.projects.map (fun x =>
                 if x.id == pid then { x with team := x.team ++ [u] } else x) }) := by
        simp only [addTeamMember, hp]
        rw [if_neg (by simp [hcond]), if_neg (by simp [hany])]
      rw [heq]
      intro q hq
      rcases List.mem_map.mp hq with ⟨x, hx, hxq⟩
      by_cases hxid : (x.id == pid) = true
      · rw [if_pos hxid] at hxq
        have hxp : x = p := huniq x hx hxid
        subst hxp
        rw [← hxq]
        simp only
        rw [List.nodup_append]
        refine ⟨hteam x hx, List.nodup_singleton u, ?_⟩
        intro a ha hau
        rcases List.mem_singleton.mp hau with rfl
        exact hmem ha
      · rw [if_neg hxid] at hxq
        rw [← hxq]
        exact hteam x hx
  · intro w q hq
    by_cases hmem : w ∈ p.team
    · have hany := (any_beq_iff p.team w).mpr hmem
      have heq : removeTeamMember valid db actor pid w =
          (.ok { p with team := p.team.filter (fun m => m != w) },
           { db with projects :=
               db.projects.map (fun x =>
                 if x.id == pid then { x with team := x.team.filter (fun m => m != w) }
                 else x) }) := by
        simp only [removeTeamMember, hp]
        rw [if_neg (by simp [hcond]), if_neg (by simp [hany])]
      rw [heq] at hq
      rcases List.mem_map.mp hq with ⟨x, hx, hxq⟩
      by_cases hxid : (x.id == pid) = true
      · rw [if_pos hxid] at hxq
        rw [← hxq]
        exact List.Nodup.filter _ (hteam x hx)
      · rw [if_neg hxid] at hxq
        rw [← hxq]
        exact hteam x hx
    · have hany := (any_beq_eq_false_iff p.team w).mpr hmem
      have heq : removeTeamMember valid db actor pid w =
          (.error 400 "User not in team", db) := by
        simp only [removeTeamMember, hp]
        rw [if_neg (by simp [hcond]), if_pos (by simp [hany])]
      rw [heq] at hq
      exact hteam q hq

/-- Witness for C5 (amended): the manager re-adding team member `u1` to
`p1` gets `400 "User already in team"` and the database is untouched. -/
theorem addTeamMember_conflict_and_nodup_witness :
    addTeamMember (fun _ => true) dbDemo { id := "u2", role := "manager" }
      "p1" "u1" = (.error 400 "User already in team", dbDemo) := by
  have h := addTeamMember_conflict_and_nodup (fun _ => true) dbDemo
    { id := "u2", role := "manager" } "p1" "u1" pDemo (by decide)
    (Or.inr (by decide)) (by decide) (by decide)
  exact h.1 (by decide)

/-! ## C6: explicit project filter outside the accessible set -/

/-- C6.  A non-admin listing tasks with an explicit (truthy) `project`
query value that is not among the projects where the caller is manager
or team member is answered with the distinct
`403 "Not authorized to access tasks from this project"` — not with an
empty list. -/
theorem getTasks_denies_inaccessible_project_filter (db : DB)
    (actor : Actor) (q : TaskQuery) (ps : String)
    (hrole : actor.role ≠ "admin")
    (hq : q.project = some ps)
    (hps : ps ≠ "")
    (hacc : ps ∉ accessibleProjectIds db actor) :
    getTasks db actor q =
      .error 403 "Not authorized to access tasks from this project" := by
  simp only [getTasks, hq]
  rw [if_pos (by simp [hrole] : (actor.role != "admin") = true)]
  rw [if_pos (by simp [hps, hacc] :
    (ps != "" && !((accessibleProjectIds db actor).contains ps)) = true)]

/-- Witness for C6: member `u3` (not on any team) asks for the tasks of
`p1` and is denied with the distinct 403. -/
theorem getTasks_denies_inaccessible_project_filter_witness :
    getTasks dbDemo { id := "u3", role := "member" }
      { project := some "p1", assignedTo := none, status := none,
        priority := none } =
      .error 403 "Not authorized to access tasks from this project" := by
  exact getTasks_denies_inaccessible_project_filter dbDemo
    { id := "u3", role := "member" }
    { project := some "p1", assignedTo := none, status := none,
      priority := none } "p1" (by decide) rfl (by decide) (by decide)

/-! ## C7: role changes silently ignored for non-admins -/

/-- Mapping `g` after an elementwise rewrite `f` that `g` cannot observe
is mapping `g` alone. -/
theorem map_comp_update_eq {α β : Type} (g : α → β) (f : α → α) (l : List α)
    (h : ∀ a, g (f a) = g a) : (l.map f).map g = l.map g := by
  induction l with
  | nil => rfl
  | cons x xs ih => simp [h, ih]

/-- C7.  A self-update (`actor.id == target id`) always succeeds; when
the actor is not an admin the `role` field of the payload is silently
ignored — every stored role, in particular the target's, is unchanged —
and a truthy `role` is honored exactly when the actor is an admin. -/
theorem updateUser_role_ignored_for_non_admin (valid : String → Bool)
    (db : DB) (actor : Actor) (uid : String) (r : UpdateUserReq) (u : User)
    (hu : findUser valid db uid = .found u)
    (hself : actor.id = uid) :
    ((updateUser valid db actor uid r).1 = .ok (mergeUser actor u r)) ∧
    (actor.role ≠ "admin" →
      ((updateUser valid db actor uid r).2.users.map User.role) =
        db.users.map User.role) ∧
    (actor.role ≠ "admin" → (mergeUser actor u r).role = u.role) ∧
    (actor.role = "admin" → truthy r.role = true →
      some (mergeUser actor u r).role = r.role) := by
  have hmrole : ∀ x : User, actor.role ≠ "admin" →
      (mergeUser actor x r).role = x.role := by
    intro x h
    simp [mergeUser, h]
  have heq : updateUser valid db actor uid r =
      (.ok (mergeUser actor u r),
       { db with users :=
           db.users.map (fun x => if x.id == uid then mergeUser actor x r else x) }) := by
    simp only [updateUser, hu]
    rw [if_neg (by simp [hself])]
  refine ⟨by rw [heq], fun hna => ?_, fun hna => hmrole u hna, fun hadm htr => ?_⟩
  · rw [heq]
    refine map_comp_update_eq User.role _ db.users (fun a => ?_)
    by_cases ha : (a.id == uid) = true
    · rw [if_pos ha]
      exact hmrole a hna
    · rw [if_neg ha]
  · rcases hr : r.role with _ | s
    · rw [hr] at htr
      exact absurd htr (by simp [truthy])
    · rw [hr] at htr
      have hs : s ≠ "" := by simpa [truthy] using htr
      simp [mergeUser, mergeField, hadm, hr, truthy, hs]

/-- Demo user `u1`, a plain member. -/
def uDemo : User :=
  { id := "u1", name := "U", email := "e", password := "h", role := "member" }

/-- Demo database holding only `uDemo`. -/
def dbUsers : DB := { users := [uDemo], projects := [], tasks := [] }

/-- Witness for C7 at the spec's scenario: member `u1` self-updates with
`role: "admin"`; the request succeeds but the stored role stays
`member`. -/
theorem updateUser_role_ignored_for_non_admin_witness :
    (∃ v, (updateUser (fun _ => true) dbUsers { id := "u1", role := "member" }
        "u1" { name := none, email := none, role := some "admin" }).1 = .ok v) ∧
    ((updateUser (fun _ => true) dbUsers { id := "u1", role := "member" }
        "u1" { name := none, email := none, role := some "admin" }).2.users.map
      User.role) = ["member"] := by
  have h := updateUser_role_ignored_for_non_admin (fun _ => true) dbUsers
    { id := "u1", role := "member" } "u1"
    { name := none, email := none, role := some "admin" } uDemo (by decide) rfl
  refine ⟨⟨_, h.1⟩, ?_⟩
  rw [h.2.1 (by decide)]
  rfl

/-! ## C8: malformed identifiers -/

/-- C8 counterexample.  `createTask`'s `catch` block has no
`err.kind == ObjectId` branch, so a malformed project id produces
`500 "Server error"`, not the NotFound outcome the claim requires of
every handler. -/
theorem createTask_malformed_project_id_500 :
    (createTask (fun s => s != "bad!")
        { users := [], projects := [], tasks := [] }
        { id := "a1", role := "admin" }
        { title := "t", description := "d", project := "bad!",
          assignedTo := none, status := none, priority := none,
          dueDate := none } "t9").1 = .error 500 "Server error" ∧
    (createTask (fun s => s != "bad!")
        { users := [], projects := [], tasks := [] }
        { id := "a1", role := "admin" }
        { title := "t", description := "d", project := "bad!",
          assignedTo := none, status := none, priority := none,
          dueDate := none } "t9").1 ≠ .error 404 "Project not found" := by
  exact ⟨rfl, by decide⟩

/-- C8 (amended).  Every handler that resolves a resource from a path id
maps a malformed id to the same `404` NotFound answer as an id that
resolves to nothing (the team handlers' `catch` message is the slightly
different "Project or user not found"), without touching the database;
task creation is the exception: a malformed (non-empty, unparseable)
project id in the body is answered `500 "Server error"`. -/
theorem malformed_id_handling (valid : String → Bool) (db : DB)
    (actor : Actor) (i : String) (hbad : valid i = false) (hne : i ≠ "")
    (r₁ : UpdateProjectReq) (r₂ : UpdateTaskReq) (r₃ : UpdateUserReq)
    (w : String) (ct : CreateTaskReq) (newId : String)
    (hct : ct.project = i) (htitle : ct.title ≠ "")
    (hdesc : ct.description ≠ "") :
    getProjectById valid db actor i = .error 404 "Project not found" ∧
    getTaskById valid db actor i = .error 404 "Task not found" ∧
    updateProject valid db actor i r₁ = (.error 404 "Project not found", db) ∧
    deleteProject valid db actor i = (.error 404 "Project not found", db) ∧
    addTeamMember valid db actor i w = (.error 404 "Project or user not found", db) ∧
    removeTeamMember valid db actor i w = (.error 404 "Project or user not found", db) ∧
    updateTask valid db actor i r₂ = (.error 404 "Task not found", db) ∧
    deleteTask valid db actor i = (.error 404 "Task not found", db) ∧
    updateUser valid db actor i r₃ = (.error 404 "User not found", db) ∧
    (createTask valid db actor ct newId).1 = .error 500 "Server error" := by
  have hfp : findProject valid db i = .castError := by
    unfold findProject
    rw [if_neg (by simp [hbad])]
  have hft : findTask valid db i = .castError := by
    unfold findTask
    rw [if_neg (by simp [hbad])]
  have hfu : findUser valid db i = .castError := by
    unfold findUser
    rw [if_neg (by simp [hbad])]
  refine ⟨?_, ?_, ?_, ?_, ?_, ?_, ?_, ?_, ?_, ?_⟩
  · simp only [getProjectById, hfp]
  · simp only [getTaskById, hft]
  · simp only [updateProject, hfp]
  · simp only [deleteProject, hfp]
  · simp only [addTeamMember, hfp]
  · simp only [removeTeamMember, hfp]
  · simp only [updateTask, hft]
  · simp only [deleteTask, hft]
  · simp only [updateUser, hfu]
  · have hv : (ct.title == "" || ct.description == "" || ct.project == "") = false := by
      simp [htitle, hdesc, hct, hne]
    simp only [createTask]
    rw [if_neg (by simp [hv])]
    rw [hct, hfp]

/-- Witness for C8 (amended) at a concrete malformed id `"bad!"`:
`getTaskById` answers the plain 404 while `createTask` answers 500. -/
theorem malformed_id_handling_witness :
    getTaskById (fun s => s != "bad!") dbDemo { id := "a1", role := "admin" }
      "bad!" = .error 404 "Task not found" ∧
    (createTask (fun s => s != "bad!") dbDemo { id := "a1", role := "admin" }
      { title := "t", description := "d", project := "bad!",
        assignedTo := none, status := none, priority := none,
        dueDate := none } "t9").1 = .error 500 "Server error" := by
  have h := malformed_id_handling (fun s => s != "bad!") dbDemo
    { id := "a1", role := "admin" } "bad!" (by decide) (by decide)
    { name := none, description := none, manager := none, team := none,
      status := none, startDate := none, endDate := none }
    { title := none, description := none, assignedTo := none, status := none,
      priority := none, dueDate := none }
    { name := none, email := none, role := none } "u1"
    { title := "t", description := "d", project := "bad!", assignedTo := none,
      status := none, priority := none, dueDate := none } "t9"
    rfl (by decide) (by decide)
  exact ⟨h.2.1, h.2.2.2.2.2.2.2.2.2⟩

/-! ## C9/C10: partial-field merge semantics -/

/-- Behaviour of one merged string field: a falsy or absent request
value keeps the stored one, a truthy value replaces it. -/
theorem mergeField_spec (old : String) (new : Option String) :
    (truthy new = false → mergeField old new = old) ∧
    (truthy new = true → some (mergeField old new) = new) := by
  rcases new with _ | s
  · exact ⟨fun _ => rfl, fun h => by simp [truthy] at h⟩
  · by_cases hs : s = ""
    · subst hs
      exact ⟨fun _ => by simp [mergeField], fun h => by simp [truthy] at h⟩
    · exact ⟨fun h => by simp [truthy, hs] at h, fun _ => by simp [mergeField, hs]⟩

/-- The same for the optional stored field `assignedTo`. -/
theorem mergeOptField_spec (old new : Option String) :
    (truthy new = false → mergeOptField old new = old) ∧
    (truthy new = true → mergeOptField old new = new) := by
  rcases new with _ | s
  · exact ⟨fun _ => rfl, fun h => by simp [truthy] at h⟩
  · by_cases hs : s = ""
    · subst hs
      exact ⟨fun _ => by simp [mergeOptField], fun h => by simp [truthy] at h⟩
    · exact ⟨fun h => by simp [truthy, hs] at h, fun _ => by simp [mergeOptField, hs]⟩

/-- A successful `updateTask` response is exactly the merged task. -/
theorem updateTask_ok_elim (valid : String → Bool) (db : DB) (actor : Actor)
    (tid : String) (r : UpdateTaskReq) (t t' : Task)
    (hft : findTask valid db tid = .found t)
    (hok : (updateTask valid db actor tid r).1 = .ok t') :
    t' = mergeTask t r := by
  simp only [updateTask, hft] at hok
  rcases hpr : db.projects.find? (fun p => p.id == t.project) with _ | pr
  · simp only [hpr] at hok
    have h : Result.error 500 "Server error" = Result.ok t' := hok
    exact Result.noConfusion h
  · simp only [hpr] at hok
    by_cases hcond : (!(actor.role == "admin") && !(pr.manager == actor.id) &&
        !(pr.team.any fun m => m == actor.id) &&
        !(t.assignedTo == some actor.id)) = true
    · rw [if_pos hcond] at hok
      have h : Result.error 403 "Not authorized to update this task" =
          Result.ok t' := hok
      exact Result.noConfusion h
    · rw [if_neg hcond] at hok
      have h : Result.ok (mergeTask t r) = Result.ok t' := hok
      injection h with h
      exact h.symm

/-- A successful `updateUser` response is exactly the merged user. -/
theorem updateUser_ok_elim (valid : String → Bool) (db : DB) (actor : Actor)
    (uid : String) (r : UpdateUserReq) (u u' : User)
    (hfu : findUser valid db uid = .found u)
    (hok : (updateUser valid db actor uid r).1 = .ok u') :
    u' = mergeUser actor u r := by
  simp only [updateUser, hfu] at hok
  by_cases hcond : (actor.id != uid && actor.role != "admin") = true
  · rw [if_pos hcond] at hok
    have h : Result.error 403 "Not authorized to update this user" =
        Result.ok u' := hok
    exact Result.noConfusion h
  · rw [if_neg hcond] at hok
    have h : Result.ok (mergeUser actor u r) = Result.ok u' := hok
    injection h with h
    exact h.symm

/-- A successful `updateProject` response is exactly the merged
project. -/
theorem updateProject_ok_elim (valid : String → Bool) (db : DB)
    (actor : Actor) (pid : String) (r : UpdateProjectReq) (p p' : Project)
    (hfp : findProject valid db pid = .found p)
    (hok : (updateProject valid db actor pid r).1 = .ok p') :
    p' = mergeProject p r := by
  simp only [updateProject, hfp] at hok
  by_cases hcond : (!(actor.role == "admin") && !(actor.id == p.manager)) = true
  · rw [if_pos hcond] at hok
    have h : Result.error 403 "Not authorized to update this project" =
        Result.ok p' := hok
    exact Result.noConfusion h
  · rw [if_neg hcond] at hok
    have h : Result.ok (mergeProject p r) = Result.ok p' := hok
    injection h with h
    exact h.symm

/-- C9.  The three update handlers use partial-field merge semantics:
for every successful update, a field whose request value is absent or
falsy (empty string) retains its stored value, and a truthy field is
replaced by the request value; for `role` (admin-gated) and `team`
(stored verbatim when present) the result is stored-or-requested. -/
theorem update_partial_merge (valid : String → Bool) :
    (∀ (db : DB) (actor : Actor) (tid : String) (r : UpdateTaskReq)
        (t t' : Task),
      findTask valid db tid = .found t →
      (updateTask valid db actor tid r).1 = .ok t' →
      ((truthy r.title = false → t'.title = t.title) ∧
       (truthy r.title = true → some t'.title = r.title) ∧
       (truthy r.description = false → t'.description = t.description) ∧
       (truthy r.description = true → some t'.description = r.description) ∧
       (truthy r.assignedTo = false → t'.assignedTo = t.assignedTo) ∧
       (truthy r.assignedTo = true → t'.assignedTo = r.assignedTo) ∧
       (truthy r.status = false → t'.status = t.status) ∧
       (truthy r.status = true → some t'.status = r.status) ∧
       (truthy r.priority = false → t'.priority = t.priority) ∧
       (truthy r.priority = true → some t'.priority = r.priority) ∧
       (truthy r.dueDate = false → t'.dueDate = t.dueDate) ∧
       (truthy r.dueDate = true → some t'.dueDate = r.dueDate))) ∧
    (∀ (db : DB) (actor : Actor) (uid : String) (r : UpdateUserReq)
        (u u' : User),
      findUser valid db uid = .found u →
      (updateUser valid db actor uid r).1 = .ok u' →
      ((truthy r.name = false → u'.name = u.name) ∧
       (truthy r.name = true → some u'.name = r.name) ∧
       (truthy r.email = false → u'.email = u.email) ∧
       (truthy r.email = true → some u'.email = r.email) ∧
       (truthy r.role = false → u'.role = u.role) ∧
       (u'.role = u.role ∨ some u'.role = r.role))) ∧
    (∀ (db : DB) (actor : Actor) (pid : String) (r : UpdateProjectReq)
        (p p' : Project),
      findProject valid db pid = .found p →
      (updateProject valid db actor pid r).1 = .ok p' →
      ((truthy r.name = false → p'.name = p.name) ∧
       (truthy r.name = true → some p'.name = r.name) ∧
       (truthy r.description = false → p'.description = p.description) ∧
       (truthy r.description = true → some p'.description = r.description) ∧
       (truthy r.manager = false → p'.manager = p.manager) ∧
       (truthy r.manager = true → some p'.manager = r.manager) ∧
       (r.team = none → p'.team = p.team) ∧
       (p'.team = p.team ∨ r.team = some p'.team) ∧
       (truthy r.status = false → p'.status = p.status) ∧
       (truthy r.status = true → some p'.status = r.status) ∧
       (truthy r.startDate = false → p'.startDate = p.startDate) ∧
       (truthy r.startDate = true → some p'.startDate = r.startDate) ∧
       (truthy r.endDate = false → p'.endDate = p.endDate) ∧
       (truthy r.endDate = true → some p'.endDate = r.endDate))) := by
  refine ⟨?_, ?_, ?_⟩
  · intro db actor tid r t t' hft hok
    have ht' := updateTask_ok_elim valid db actor tid r t t' hft hok
    subst ht'
    exact ⟨(mergeField_spec t.title r.title).1,
           (mergeField_spec t.title r.title).2,
           (mergeField_spec t.description r.description).1,
           (mergeField_spec t.description r.description).2,
           (mergeOptField_spec t.assignedTo r.assignedTo).1,
           (mergeOptField_spec t.assignedTo r.assignedTo).2,
           (mergeField_spec t.status r.status).1,
           (mergeField_spec t.status r.status).2,
           (mergeField_spec t.priority r.priority).1,
           (mergeField_spec t.priority r.priority).2,
           (mergeField_spec t.dueDate r.dueDate).1,
           (mergeField_spec t.dueDate r.dueDate).2⟩
  · intro db actor uid r u u' hfu hok
    have hu' := updateUser_ok_elim valid db actor uid r u u' hfu hok
    subst hu'
    refine ⟨(mergeField_spec u.name r.name).1,
            (mergeField_spec u.name r.name).2,
            (mergeField_spec u.email r.email).1,
            (mergeField_spec u.email r.email).2, ?_, ?_⟩
    · intro h
      show (if (truthy r.role && (actor.role == "admin")) = true then
          mergeField u.role r.role else u.role) = u.role
      rw [if_neg (by simp [h])]
    · by_cases hc : (truthy r.role && (actor.role == "admin")) = true
      · right
        have htr : truthy r.role = true := by
          have h2 := hc
          rw [Bool.and_eq_true] at h2
          exact h2.1
        show some (if (truthy r.role && (actor.role == "admin")) = true then
            mergeField u.role r.role else u.role) = r.role
        rw [if_pos hc]
        exact (mergeField_spec u.role r.role).2 htr
      · left
        show (if (truthy r.role && (actor.role == "admin")) = true then
            mergeField u.role r.role else u.role) = u.role
        rw [if_neg hc]
  · intro db actor pid r p p' hfp hok
    have hp' := updateProject_ok_elim valid db actor pid r p p' hfp hok
    subst hp'
    refine ⟨(mergeField_spec p.name r.name).1,
            (mergeField_spec p.name r.name).2,
            (mergeField_spec p.description r.description).1,
            (mergeField_spec p.description r.description).2,
            (mergeField_spec p.manager r.manager).1,
            (mergeField_spec p.manager r.manager).2, ?_, ?_,
            (mergeField_spec p.status r.status).1,
            (mergeField_spec p.status r.status).2,
            (mergeField_spec p.startDate r.startDate).1,
            (mergeField_spec p.startDate r.startDate).2,
            (mergeField_spec p.endDate r.endDate).1,
            (mergeField_spec p.endDate r.endDate).2⟩
    · intro h
      show (match r.team with | some l => l | none => p.team) = p.team
      rw [h]
    · rcases hteam : r.team with _ | l
      · left
        show (match r.team with | some l => l | none => p.team) = p.team
        rw [hteam]
      · right
        simp only [mergeProject, hteam]

/-- Witness for C9: team member `u1` updates `t1` with a truthy
`status`, an explicitly empty `title` and everything else absent; the
title and description are retained, the status is replaced. -/
theorem update_partial_merge_witness :
    (mergeTask tDemo
      { title := some "", description := none, assignedTo := none,
        status := some "done", priority := none, dueDate := none }).title =
      tDemo.title ∧
    some (mergeTask tDemo
      { title := some "", description := none, assignedTo := none,
        status := some "done", priority := none, dueDate := none }).status =
      some "done" := by
  have h := (update_partial_merge (fun _ => true)).1 dbDemo
    { id := "u1", role := "member" } "t1"
    { title := some "", description := none, assignedTo := none,
      status := some "done", priority := none, dueDate := none }
    tDemo
    (mergeTask tDemo
      { title := some "", description := none, assignedTo := none,
        status := some "done", priority := none, dueDate := none })
    (by decide) (by decide)
  exact ⟨h.1 (by decide), h.2.2.2.2.2.2.2.1 (by decide)⟩

/-- C10.  `updateTask` cannot change a task's project reference:
`project` is not among the fields the handler copies into `taskFields`,
so every stored task keeps its `project` across any update request, and
a successfully updated task has the project it had before. -/
theorem updateTask_preserves_project (valid : String → Bool) (db : DB)
    (actor : Actor) (tid : String) (r : UpdateTaskReq) :
    ((updateTask valid db actor tid r).2.tasks.map Task.project) =
      db.tasks.map Task.project ∧
    (∀ t t' : Task, findTask valid db tid = .found t →
      (updateTask valid db actor tid r).1 = .ok t' →
      t'.project = t.project) := by
  constructor
  · rcases hft : findTask valid db tid with t | _ | _
    · simp only [updateTask, hft]
      rcases hpr : db.projects.find? (fun p => p.id == t.project) with _ | pr
      · simp only [hpr]
      · simp only [hpr]
        by_cases hcond : (!(actor.role == "admin") && !(pr.manager == actor.id) &&
            !(pr.team.any fun m => m == actor.id) &&
            !(t.assignedTo == some actor.id)) = true
        · rw [if_pos hcond]
        · rw [if_neg hcond]
          refine map_comp_update_eq Task.project _ db.tasks (fun a => ?_)
          by_cases ha : (a.id == tid) = true
          · rw [if_pos ha]
            rfl
          · rw [if_neg ha]
    · simp only [updateTask, hft]
    · simp only [updateTask, hft]
  · intro t t' hft hok
    have ht' := updateTask_ok_elim valid db actor tid r t t' hft hok
    subst ht'
    rfl

/-- Witness for C10: the successful demo update of `t1` keeps its
project reference `p1`. -/
theorem updateTask_preserves_project_witness :
    (mergeTask tDemo
      { title := some "new", description := none, assignedTo := none,
        status := none, priority := none, dueDate := none }).project =
      tDemo.project := by
  exact (updateTask_preserves_project (fun _ => true) dbDemo
    { id := "u1", role := "member" } "t1"
    { title := some "new", description := none, assignedTo := none,
      status := none, priority := none, dueDate := none }).2 tDemo
    (mergeTask tDemo
      { title := some "new", description := none, assignedTo := none,
        status := none, priority := none, dueDate := none })
    (by decide) (by decide)

end PMS
